import Mathlib

/-!
# Job synchronisation and polling of `frontend/static/app.js`

A shallow embedding of the client-side job registry (`appState.activeJobs`),
the poller set (`appState.pollingIntervals`), the browser's interval timers and
the three asynchronous operations that touch them: `loadJobs`,
`startJobPolling` (with the timer callback it installs) and `deleteJob`;
of the connectivity check `checkApiConnection` with `setOfflineMode`; and of
the two readers of the registry, `updateDashboardUI` and `applyJobFilters`.

Every `async` function is cut at its `await`: the part after the `await` runs
without interruption on the event loop, so it is one atomic state transformer
that receives the outcome of the awaited request as an argument.
-/

namespace App

/-! ## JavaScript values -/

/-- Leaves of a JSON object as the code sees them (metric values). -/
inductive JsAtom where
  | num (n : Int)
  | str (s : String)
  deriving DecidableEq, Repr

/-- JSON values carried by job records. A missing property reads as `undefined`.
The code never looks inside an object or array: it only tests truthiness, and
every object is truthy, the empty one included. -/
inductive JsVal where
  | undefined
  | null
  | bool (b : Bool)
  | num (n : Int)
  | str (s : String)
  | obj (fields : List (String × JsAtom))
  deriving DecidableEq, Repr

/-- JavaScript truthiness (`ToBoolean`). -/
def JsVal.truthy : JsVal → Bool
  | .undefined => false
  | .null => false
  | .bool b => b
  | .num n => n != 0
  | .str s => s != ""
  | .obj _ => true

/-- The JavaScript operator `a || b`. -/
def jsOr (a b : JsVal) : JsVal := if a.truthy then a else b

/-- The test `['running', 'pending'].includes(status)`. -/
def isActive (status : JsVal) : Bool :=
  status == .str "running" || status == .str "pending"

/-! ## JavaScript `Map` with string keys, in insertion order -/

/-- Entries of a `Map`, oldest first. -/
abbrev JsMap (α : Type) := List (String × α)

namespace JsMap

variable {α : Type}

/-- The method `Map.prototype.has`. -/
def has (k : String) : JsMap α → Bool
  | [] => false
  | (k', _) :: m => if k' = k then true else has k m

/-- The method `Map.prototype.get`; `none` stands for `undefined`. -/
def get (k : String) : JsMap α → Option α
  | [] => none
  | (k', v) :: m => if k' = k then some v else get k m

/-- The method `Map.prototype.set`: an existing key keeps its position, a new
key goes last. -/
def set (k : String) (v : α) : JsMap α → JsMap α
  | [] => [(k, v)]
  | (k', v') :: m => if k' = k then (k', v) :: m else (k', v') :: set k v m

/-- The method `Map.prototype.delete`. -/
def delete (k : String) : JsMap α → JsMap α
  | [] => []
  | (k', v) :: m => if k' = k then delete k m else (k', v) :: delete k m

/-- Keys in iteration order. -/
def keys (m : JsMap α) : List String := m.map Prod.fst

end JsMap

/-! ## Data model -/

/-- One element of `result.jobs` as returned by the jobs-list endpoint. -/
structure RemoteJob where
  job_id : String
  name : JsVal
  model_type : JsVal
  status : JsVal
  progress : JsVal
  created_at : JsVal
  results : JsVal
  metrics : JsVal
  deriving DecidableEq, Repr

/-- A value of `appState.activeJobs` (the object literal built in `loadJobs`). -/
structure Job where
  id : String
  name : JsVal
  model_type : JsVal
  status : JsVal
  progress : JsVal
  created_at : JsVal
  results : JsVal
  metrics : JsVal
  deriving DecidableEq, Repr

/-- The four properties the timer callback reads from the single-job body
`jobData`. -/
structure JobData where
  status : JsVal
  progress : JsVal
  results : JsVal
  metrics : JsVal
  deriving DecidableEq, Repr

/-- Outcome of `fetch(jobsList)` followed by `response.json()`. -/
inductive ListResponse where
  /-- The fetch rejected, the response was not `ok`, or the body did not parse. -/
  | failure
  /-- The parsed body; `none` when `result.jobs` is missing or falsy. -/
  | ok (jobs : Option (List RemoteJob))
  deriving DecidableEq, Repr

/-- Outcome of the single-job fetch of a poll tick. -/
inductive PollOutcome where
  /-- The fetch rejected or the response was not `ok` (404 included). -/
  | failure
  /-- The parsed body `jobData`. -/
  | success (jobData : JobData)
  deriving DecidableEq, Repr

/-- Calls into the view layer and the console, recorded in call order. -/
inductive Effect where
  | renderJobsUI
  | showToast (title : String) (kind : String)
  | jobsLoadErrorPlaceholder
  | updateJobUI (jobId : String)
  | removeJobCard (jobId : String)
  | loadDashboardData
  | consoleError
  | consoleLog
  | statusConnected
  | statusDemoMode
  deriving DecidableEq, Repr

/-- The global `appState` (the fields the job subsystem and the connectivity
check use) together with the browser state the code drives: live interval
timers, the next timer handle, and single-job requests still in flight. -/
structure AppState where
  apiConnected : Bool
  connectionCheckAttempts : Nat
  activeJobs : JsMap Job
  pollingIntervals : JsMap Nat
  /-- Live `setInterval` timers: handle and the `jobId` its callback closes over. -/
  timers : List (Nat × String)
  /-- Handle the next `setInterval` call returns. -/
  nextTimer : Nat
  /-- Single-job requests issued by a timer callback and not yet settled. -/
  inflight : List (Nat × String)
  effects : List Effect
  deriving DecidableEq, Repr

/-- The state at page load (`let appState = ...`): nothing tracked, no timer. -/
def AppState.initial : AppState :=
  { apiConnected := false, connectionCheckAttempts := 0, activeJobs := [],
    pollingIntervals := [], timers := [], nextTimer := 1, inflight := [], effects := [] }

/-- Records a view or console call. -/
def AppState.emit (s : AppState) (e : Effect) : AppState :=
  { s with effects := s.effects ++ [e] }

/-- The browser call `clearInterval(handle)`; unknown handles are ignored. -/
def clearInterval (handle : Nat) (s : AppState) : AppState :=
  { s with timers := s.timers.filter (fun t => decide (t.1 ≠ handle)) }

/-! ## Polling -/

/-- The synchronous body of `startJobPolling(jobId)`: the guard, `setInterval`
and the registration of the handle. The timer callback is `tickFired` and
`pollResponse` below. -/
def startJobPolling (jobId : String) (s : AppState) : AppState :=
  if jobId = "" ∨ JsMap.has jobId s.pollingIntervals = true then s
  else
    { s with
      timers := s.timers ++ [(s.nextTimer, jobId)]
      nextTimer := s.nextTimer + 1
      pollingIntervals := JsMap.set jobId s.nextTimer s.pollingIntervals }

/-- The four assignments `job.status = ...` to `job.metrics = ...` of the timer
callback. -/
def mergeJobData (job : Job) (jobData : JobData) : Job :=
  { job with
    status := jobData.status
    progress := jsOr jobData.progress job.progress
    results := jsOr jobData.results job.results
    metrics := jsOr jobData.metrics job.metrics }

/-- The timer callback of handle `interval` for `jobId`, from the point where
its single-job request has settled with `outcome`. A view call that throws
inside the `try` lands in the same `catch`, whose two state changes the
terminal branch has made already. -/
def pollResponse (interval : Nat) (jobId : String) (outcome : PollOutcome)
    (s : AppState) : AppState :=
  match outcome with
  | .failure =>
    let s1 := s.emit .consoleError
    let s2 := clearInterval interval s1
    { s2 with pollingIntervals := JsMap.delete jobId s2.pollingIntervals }
  | .success jobData =>
    match JsMap.get jobId s.activeJobs with
    | none => s
    | some job =>
      let job1 := mergeJobData job jobData
      let s1 := { s with activeJobs := JsMap.set jobId job1 s.activeJobs }
      let s2 := s1.emit (.updateJobUI jobId)
      if isActive job1.status = false then
        let s3 := clearInterval interval s2
        let s4 := { s3 with pollingIntervals := JsMap.delete jobId s3.pollingIntervals }
        (s4.emit (.showToast "Job Update" "info")).emit .loadDashboardData
      else s2

/-! ## Full-list synchronisation -/

/-- The object literal stored by `appState.activeJobs.set(job.job_id, ...)`. -/
def jobOfRemote (job : RemoteJob) : Job :=
  { id := job.job_id
    name := job.name
    model_type := job.model_type
    status := job.status
    progress := jsOr job.progress (.num 0)
    created_at := job.created_at
    results := job.results
    metrics := jsOr job.metrics (.obj []) }

/-- One call of the callback of `appState.pollingIntervals.forEach`. -/
def stopStalePoller (jobs : List RemoteJob) (s : AppState) (entry : String × Nat) :
    AppState :=
  match jobs.find? (fun j => decide (j.job_id = entry.1)) with
  | some job =>
    if isActive job.status = false then
      let s1 := clearInterval entry.2 s
      { s1 with pollingIntervals := JsMap.delete entry.1 s1.pollingIntervals }
    else s
  | none =>
    let s1 := clearInterval entry.2 s
    { s1 with pollingIntervals := JsMap.delete entry.1 s1.pollingIntervals }

/-- One call of the callback of `jobs.forEach`. -/
def storeJob (s : AppState) (job : RemoteJob) : AppState :=
  let s1 := { s with activeJobs := JsMap.set job.job_id (jobOfRemote job) s.activeJobs }
  if isActive job.status = true ∧ JsMap.has job.job_id s1.pollingIntervals = false then
    startJobPolling job.job_id s1
  else s1

/-- The function `loadJobs(render)` from the point where the list request has
settled with `resp`. -/
def loadJobs (resp : ListResponse) (render : Bool) (s : AppState) : AppState :=
  match resp with
  | .failure =>
    let s1 := s.emit .consoleError
    if render then (s1.emit (.showToast "Error" "error")).emit .jobsLoadErrorPlaceholder
    else s1
  | .ok body =>
    let jobs := body.getD []
    let s1 := s.pollingIntervals.foldl (stopStalePoller jobs) s
    let s2 := { s1 with activeJobs := [] }
    let s3 := jobs.foldl storeJob s2
    if render then s3.emit .renderJobsUI else s3

/-! ## Deleting a job -/

/-- The function `deleteJob(jobId)`: the identifier guard, the confirmation
dialog (`confirmed`) and the callback after the delete request has settled
(`responseOk`). -/
def deleteJob (jobId : String) (confirmed : Bool) (responseOk : Bool) (s : AppState) :
    AppState :=
  if jobId = "" ∨ jobId = "undefined" then s.emit (.showToast "Error" "error")
  else if confirmed = false then s
  else if responseOk = false then s.emit (.showToast "Error" "error")
  else
    let s1 := s.emit (.showToast "Job Deleted" "success")
    let s2 := s1.emit (.removeJobCard jobId)
    let s3 := { s2 with activeJobs := JsMap.delete jobId s2.activeJobs }
    s3.emit .loadDashboardData

/-! ## Event loop -/

/-- What the event loop can run next in the job subsystem. -/
inductive Event where
  /-- A pending `loadJobs(render)` resumes with the list response. -/
  | loadJobsDone (resp : ListResponse) (render : Bool)
  /-- The interval timer `interval` fires and its callback issues the request. -/
  | tickFired (interval : Nat)
  /-- The request issued by timer `interval` for `jobId` settles. -/
  | pollDone (interval : Nat) (jobId : String) (outcome : PollOutcome)
  /-- A confirmed `deleteJob(jobId)` resumes with the delete response. -/
  | deleteJobDone (jobId : String) (responseOk : Bool)
  deriving DecidableEq, Repr

/-- One turn of the event loop; `none` when the event cannot occur in `s` (a
timer that is not live cannot fire, a request never issued cannot settle). -/
def step (s : AppState) : Event → Option AppState
  | .loadJobsDone resp render => some (loadJobs resp render s)
  | .tickFired interval =>
    match s.timers.find? (fun t => decide (t.1 = interval)) with
    | some t => some { s with inflight := s.inflight ++ [t] }
    | none => none
  | .pollDone interval jobId outcome =>
    if (interval, jobId) ∈ s.inflight then
      some (pollResponse interval jobId outcome
        { s with inflight := s.inflight.erase (interval, jobId) })
    else none
  | .deleteJobDone jobId responseOk => some (deleteJob jobId true responseOk s)

/-- Runs a schedule of events from `s`. -/
def run (s : AppState) : List Event → Option AppState
  | [] => some s
  | e :: es => (step s e).bind (fun s1 => run s1 es)

/-- Number of live interval timers whose callback polls `jobId`. -/
def liveTimers (jobId : String) (s : AppState) : Nat :=
  (s.timers.filter (fun t => decide (t.2 = jobId))).length

/-- The test `jobs.find(j => j.job_id === jobId)` followed by the status test of
the cleanup loop: the first listed job with this identifier exists and is
active. -/
def fetchedActive (jobs : List RemoteJob) (jobId : String) : Bool :=
  match jobs.find? (fun j => decide (j.job_id = jobId)) with
  | some job => isActive job.status
  | none => false

/-- The last job of the list that carries the identifier, the one whose
`activeJobs.set` is not overwritten by a later one. -/
def lastFetched (jobId : String) : List RemoteJob → Option RemoteJob
  | [] => none
  | job :: rest =>
    match lastFetched jobId rest with
    | some later => some later
    | none => if job.job_id = jobId then some job else none

/-! ## Sample data -/

/-- A listed job with the given identifier and status and no optional field. -/
def sampleJob (jobId : String) (status : String) : RemoteJob :=
  { job_id := jobId, name := .str "run", model_type := .str "yolo", status := .str status,
    progress := .undefined, created_at := .str "2025-01-01T00:00:00", results := .undefined,
    metrics := .undefined }

/-- The state after the first sync saw job "a" running: one entry, one poller. -/
def trackedState : AppState :=
  loadJobs (.ok (some [sampleJob "a" "running"])) true AppState.initial

/-- A single-job body that reports completion. -/
def completedData : JobData :=
  { status := .str "completed", progress := .num 100, results := .undefined,
    metrics := .undefined }

/-- A single-job body without a `status` property whose `metrics` is the empty
object. -/
def statuslessData : JobData :=
  { status := .undefined, progress := .undefined, results := .undefined, metrics := .obj [] }

/-- A tracked job with progress and metrics on record, polled by timer 1. -/
def metricsState : AppState :=
  { AppState.initial with
    activeJobs :=
      [("a", { id := "a", name := .str "run", model_type := .str "yolo",
               status := .str "running", progress := .num 40,
               created_at := .str "2025-01-01T00:00:00", results := .undefined,
               metrics := .obj [("loss", .num 2)] })]
    pollingIntervals := [("a", 1)]
    timers := [(1, "a")]
    nextTimer := 2 }

/-- Job "a" stays running on the server. Timer 1 fires twice before either
request settles; both requests fail, and a sync runs after each failure. -/
def pollRaceSchedule : List Event :=
  [ .loadJobsDone (.ok (some [sampleJob "a" "running"])) true,
    .tickFired 1,
    .tickFired 1,
    .pollDone 1 "a" .failure,
    .loadJobsDone (.ok (some [sampleJob "a" "running"])) true,
    .pollDone 1 "a" .failure,
    .loadJobsDone (.ok (some [sampleJob "a" "running"])) true ]

/-- The tracked job "a" once a confirmed `deleteJob("a")` has been answered:
the registry entry is gone, the poller is still there. -/
def untrackedState : AppState := deleteJob "a" true true trackedState

/-- Whether "a" is a key of `pollingIntervals`, paired with the number of live
timers that poll "a". -/
def pollerSummary (s : AppState) : Bool × Nat :=
  (JsMap.has "a" s.pollingIntervals, liveTimers "a" s)

/-! ## Connectivity check -/

/-- The function `setOfflineMode()`. `hasStatusElement` tells whether
`document.getElementById('apiStatus')` finds the indicator (with its dot and
text children); without it the function returns before the assignment. -/
def setOfflineMode (hasStatusElement : Bool) (s : AppState) : AppState :=
  if hasStatusElement = false then s
  else ({ s with apiConnected := false }).emit .statusDemoMode

/-- The function `checkApiConnection()` up to its `await fetch(health)`: the
attempt ceiling, the lookup of the indicator and the increment. The flag tells
whether the health probe was issued. -/
def checkApiConnectionStart (hasStatusElement : Bool) (s : AppState) : AppState × Bool :=
  if s.connectionCheckAttempts > 3 then (setOfflineMode hasStatusElement s, false)
  else if hasStatusElement = false then (s, false)
  else ({ s with connectionCheckAttempts := s.connectionCheckAttempts + 1 }, true)

/-- The function `checkApiConnection()` from the point where the health probe
has settled: `responseOk` is `response.ok`, and `false` also stands for a
rejected or timed-out fetch. -/
def checkApiConnectionDone (hasStatusElement : Bool) (responseOk : Bool) (s : AppState) :
    AppState :=
  if responseOk = true then
    ({ s with apiConnected := true, connectionCheckAttempts := 0 }).emit .statusConnected
  else (setOfflineMode hasStatusElement s).emit .consoleLog

/-- One whole call of `checkApiConnection()` with nothing else running between
the probe and its answer. The flag tells whether the probe was issued. -/
def checkApiConnection (hasStatusElement : Bool) (responseOk : Bool) (s : AppState) :
    AppState × Bool :=
  let started := checkApiConnectionStart hasStatusElement s
  if started.2 = true then (checkApiConnectionDone hasStatusElement responseOk started.1, true)
  else started

/-- Consecutive calls of `checkApiConnection()`, one per listed probe answer,
with the number of probes that were issued. -/
def checkApiConnectionAll (hasStatusElement : Bool) : List Bool → AppState → AppState × Nat
  | [], s => (s, 0)
  | responseOk :: rest, s =>
    let call := checkApiConnection hasStatusElement responseOk s
    let later := checkApiConnectionAll hasStatusElement rest call.1
    (later.1, (if call.2 = true then 1 else 0) + later.2)

/-! ## Dashboard counts and job filters -/

/-- The three job counts `updateDashboardUI()` writes to the page. -/
structure DashboardCounts where
  running : Nat
  completed : Nat
  failed : Nat
  deriving DecidableEq, Repr

/-- The counts computed by `updateDashboardUI()` from
`Array.from(appState.activeJobs.values())`. -/
def updateDashboardUI (s : AppState) : DashboardCounts :=
  let jobs := s.activeJobs.map Prod.snd
  { running := (jobs.filter (fun j => isActive j.status)).length
    completed := (jobs.filter (fun j => j.status == .str "completed")).length
    failed := (jobs.filter (fun j => j.status == .str "failed")).length }

/-- The call `value.toLowerCase()`: defined on strings, a `TypeError` (`none`) on
anything else. The string method itself is the argument `toLowerCase`. -/
def lowerOf (toLowerCase : String → String) : JsVal → Option String
  | .str text => some (toLowerCase text)
  | _ => none

/-- The callback of the `filter` in `applyJobFilters()`, with the short-circuit
evaluation of `||` and `&&`; `none` when a `toLowerCase` call throws. -/
def jobMatches (toLowerCase : String → String) (typeFilter statusFilter : String)
    (job : Job) : Option Bool :=
  (if typeFilter = "" then some true
    else (lowerOf toLowerCase job.model_type).map (fun t => decide (t = typeFilter))).bind
  fun typeMatch =>
    (if statusFilter = "" then some true
      else (lowerOf toLowerCase job.status).map (fun t => decide (t = statusFilter))).bind
    fun statusMatch =>
      (if statusFilter = "running" then
          (lowerOf toLowerCase job.status).map
            (fun t => if t = "pending" then true else statusMatch)
        else some statusMatch).map
      fun statusMatch2 => typeMatch && statusMatch2

/-- The method `Array.prototype.filter` with a callback that may throw. -/
def filterJobs (p : Job → Option Bool) : List Job → Option (List Job)
  | [] => some []
  | job :: rest =>
    match p job with
    | none => none
    | some keep => (filterJobs p rest).map (fun kept => if keep then job :: kept else kept)

/-- The constant `filteredJobs` of `applyJobFilters()` for the two filter values
read from the page; the cards rendered from it are not modelled. -/
def applyJobFilters (toLowerCase : String → String) (typeFilter statusFilter : String)
    (s : AppState) : Option (List Job) :=
  filterJobs (jobMatches toLowerCase typeFilter statusFilter) (s.activeJobs.map Prod.snd)

/-- Lower-casing of the letters A to Z, which is what `toLowerCase` does on
ASCII text. -/
def asciiLower (text : String) : String := String.mk (text.data.map Char.toLower)

/-! ## Schedules that keep pollers tied to tracked jobs -/

/-- The five statuses of a job snapshot. -/
def knownStatuses : List String := ["pending", "running", "completed", "failed", "cancelled"]

/-- Events under which pollers stay tied to active registry entries: a fetched
list has pairwise-distinct identifiers, and a delete that the service accepts is
for an identifier that has no poller (the view offers Delete on finished jobs). -/
def Event.admissible (s : AppState) : Event → Bool
  | .loadJobsDone (.ok (some jobs)) _ => decide ((jobs.map (fun j => j.job_id)).Nodup)
  | .deleteJobDone jobId responseOk => !responseOk || !JsMap.has jobId s.pollingIntervals
  | _ => true

/-- Runs a schedule from `s`, stopping with `none` at an event that cannot
occur or is not admissible. -/
def runAdmissible (s : AppState) : List Event → Option AppState
  | [] => some s
  | e :: es =>
    if e.admissible s = true then (step s e).bind (fun s1 => runAdmissible s1 es) else none

/-- Every key of `pollingIntervals` has an entry in `activeJobs` whose status is
pending or running. -/
def PollersTracked (s : AppState) : Prop :=
  ∀ id, JsMap.has id s.pollingIntervals = true →
    ∃ job, JsMap.get id s.activeJobs = some job ∧ isActive job.status = true

/-! ## More sample data -/

/-- The state after four consecutive failed connectivity checks at page load. -/
def offlineState : AppState :=
  (checkApiConnectionAll true [false, false, false, false] AppState.initial).1

/-- A single-job body that still reports the job as running at 50 percent. -/
def runningData : JobData :=
  { status := .str "running", progress := .num 50, results := .undefined,
    metrics := .undefined }

/-- Timer 1 polls "a"; while its request is in flight a sync lists "a" as
completed and cancels the poller; then the request settles with a body that
still says running. -/
def lateResponseSchedule : List Event :=
  [ .loadJobsDone (.ok (some [sampleJob "a" "running"])) true,
    .tickFired 1,
    .loadJobsDone (.ok (some [sampleJob "a" "completed"])) true,
    .pollDone 1 "a" (.success runningData) ]

/-- A sync lists "a" running, then a confirmed delete of "a" is accepted. -/
def deleteActiveSchedule : List Event :=
  [ .loadJobsDone (.ok (some [sampleJob "a" "running"])) true,
    .deleteJobDone "a" true ]

/-- One sync whose list names "a" twice, first running, then completed. -/
def duplicateListSchedule : List Event :=
  [ .loadJobsDone (.ok (some [sampleJob "a" "running", sampleJob "a" "completed"])) true ]

/-- The state in which `pollRaceSchedule` ends. -/
def pollRaceFinal : AppState := (run AppState.initial pollRaceSchedule).getD AppState.initial

/-- A registry with one job in each of the five statuses. -/
def fiveStatusState : AppState :=
  loadJobs (.ok (some [sampleJob "p" "pending", sampleJob "r" "running",
    sampleJob "c" "completed", sampleJob "f" "failed", sampleJob "x" "cancelled"]))
    false AppState.initial

/-! ## Lemmas about `Map` operations -/

namespace JsMap
variable {α : Type}

theorem has_eq_isSome_get (k : String) (m : JsMap α) : has k m = (get k m).isSome := by
  induction m with
  | nil => rfl
  | cons p m ih =>
    obtain ⟨k', v⟩ := p
    by_cases h : k' = k <;> simp [has, get, h, ih]

theorem has_iff_mem_keys (k : String) (m : JsMap α) : has k m = true ↔ k ∈ keys m := by
  induction m with
  | nil => simp [has, keys]
  | cons p m ih =>
    obtain ⟨k', v⟩ := p
    by_cases h : k' = k
    · simp [has, keys, h]
    · have h2 : ¬ k = k' := fun e => h e.symm
      simp only [keys] at ih
      simp [has, keys, h, h2, ih]

theorem has_set (k k' : String) (v : α) (m : JsMap α) :
    has k (set k' v m) = true ↔ (k = k' ∨ has k m = true) := by
  induction m with
  | nil => simp [has, set, eq_comm]
  | cons p m ih =>
    obtain ⟨k1, v1⟩ := p
    by_cases h1 : k1 = k'
    · subst h1
      by_cases h2 : k1 = k
      · simp [has, set, h2]
      · have h3 : ¬ k = k1 := fun e => h2 e.symm
        simp [has, set, h2, h3]
    · by_cases h2 : k1 = k
      · subst h2; simp [has, set, h1]
      · simp [has, set, h1, h2, ih]

theorem get_set_self (k : String) (v : α) (m : JsMap α) : get k (set k v m) = some v := by
  induction m with
  | nil => simp [get, set]
  | cons p m ih =>
    obtain ⟨k1, v1⟩ := p
    by_cases h1 : k1 = k <;> simp [get, set, h1, ih]

theorem get_set_ne (k k' : String) (v : α) (m : JsMap α) (h : k ≠ k') :
    get k (set k' v m) = get k m := by
  induction m with
  | nil => simp [get, set, Ne.symm h]
  | cons p m ih =>
    obtain ⟨k1, v1⟩ := p
    by_cases h1 : k1 = k'
    · subst h1
      have h3 : ¬ k1 = k := fun e => h e.symm
      simp [get, set, h3]
    · by_cases h2 : k1 = k
      · subst h2; simp [get, set, h1]
      · simp [get, set, h1, h2, ih]

theorem keys_set_of_has (k : String) (v : α) (m : JsMap α) (h : has k m = true) :
    keys (set k v m) = keys m := by
  induction m with
  | nil => simp [has] at h
  | cons p m ih =>
    obtain ⟨k1, v1⟩ := p
    by_cases h1 : k1 = k
    · simp [set, keys, h1]
    · simp only [has, h1, if_false] at h
      have := ih h
      simp only [keys] at this
      simp [set, keys, h1, this]

theorem set_set (k : String) (v w : α) (m : JsMap α) : set k v (set k w m) = set k v m := by
  induction m with
  | nil => simp [set]
  | cons p m ih =>
    obtain ⟨k1, v1⟩ := p
    by_cases h1 : k1 = k <;> simp [set, h1, ih]

theorem has_delete (k k' : String) (m : JsMap α) :
    has k (delete k' m) = true ↔ (k ≠ k' ∧ has k m = true) := by
  induction m with
  | nil => simp [has, delete]
  | cons p m ih =>
    obtain ⟨k1, v1⟩ := p
    by_cases h1 : k1 = k'
    · subst h1
      by_cases h2 : k1 = k
      · subst h2; simp [has, delete, ih]
      · have h3 : ¬ k = k1 := fun e => h2 e.symm
        simp [has, delete, h2, h3, ih]
    · by_cases h2 : k1 = k
      · subst h2; simp [has, delete, h1]
      · simp [has, delete, h1, h2, ih]

theorem get_delete_ne (k k' : String) (m : JsMap α) (h : k ≠ k') :
    get k (delete k' m) = get k m := by
  induction m with
  | nil => simp [get, delete]
  | cons p m ih =>
    obtain ⟨k1, v1⟩ := p
    by_cases h1 : k1 = k'
    · subst h1
      have h3 : ¬ k1 = k := fun e => h e.symm
      simp [get, delete, h3, ih]
    · by_cases h2 : k1 = k
      · subst h2; simp [get, delete, h1]
      · simp [get, delete, h1, h2, ih]

end JsMap

/-! ## Lemmas about the two loops of `loadJobs` -/

theorem stopStalePoller_eq (jobs : List RemoteJob) (s : AppState) (e : String × Nat) :
    stopStalePoller jobs s e =
      if fetchedActive jobs e.1 = true then s
      else { clearInterval e.2 s with
             pollingIntervals := JsMap.delete e.1 (clearInterval e.2 s).pollingIntervals } := by
  unfold stopStalePoller fetchedActive
  cases jobs.find? (fun j => decide (j.job_id = e.1)) with
  | none => simp
  | some job => cases h : isActive job.status <;> simp [h]

theorem stopStalePoller_has (jobs : List RemoteJob) (s : AppState) (e : String × Nat)
    (k : String) :
    JsMap.has k (stopStalePoller jobs s e).pollingIntervals = true ↔
      (JsMap.has k s.pollingIntervals = true ∧ (k = e.1 → fetchedActive jobs k = true)) := by
  rw [stopStalePoller_eq]
  by_cases h : fetchedActive jobs e.1 = true
  · rw [if_pos h]
    constructor
    · intro hk; exact ⟨hk, fun hke => hke ▸ h⟩
    · intro hk; exact hk.1
  · rw [if_neg h]
    simp only [clearInterval, JsMap.has_delete]
    constructor
    · rintro ⟨hne, hk⟩; exact ⟨hk, fun hke => absurd hke hne⟩
    · rintro ⟨hk, himp⟩
      refine ⟨fun hke => h ?_, hk⟩
      have := himp hke
      rwa [hke] at this

theorem cleanup_has (jobs : List RemoteJob) (l : List (String × Nat)) (s : AppState)
    (k : String) :
    JsMap.has k (l.foldl (stopStalePoller jobs) s).pollingIntervals = true ↔
      (JsMap.has k s.pollingIntervals = true ∧
        (k ∈ JsMap.keys l → fetchedActive jobs k = true)) := by
  induction l generalizing s with
  | nil => simp [JsMap.keys]
  | cons e l ih =>
    rw [List.foldl_cons, ih, stopStalePoller_has]
    simp only [JsMap.keys, List.map_cons, List.mem_cons]
    constructor
    · rintro ⟨⟨hk, h1⟩, h2⟩
      refine ⟨hk, ?_⟩
      rintro (h | h)
      · exact h1 h
      · exact h2 h
    · rintro ⟨hk, h⟩
      exact ⟨⟨hk, fun e => h (Or.inl e)⟩, fun e => h (Or.inr e)⟩

theorem storeJob_activeJobs (s : AppState) (job : RemoteJob) :
    (storeJob s job).activeJobs = JsMap.set job.job_id (jobOfRemote job) s.activeJobs := by
  unfold storeJob startJobPolling
  simp only
  split
  · split <;> rfl
  · rfl

theorem storeJob_has (s : AppState) (job : RemoteJob) (k : String) :
    JsMap.has k (storeJob s job).pollingIntervals = true ↔
      (JsMap.has k s.pollingIntervals = true ∨
        (k = job.job_id ∧ k ≠ "" ∧ isActive job.status = true)) := by
  unfold storeJob startJobPolling
  simp only
  split
  · rename_i h
    split
    · rename_i h2
      rcases h2 with h2 | h2
      · constructor
        · intro hk; exact Or.inl hk
        · rintro (hk | ⟨h3, h4, _⟩)
          · exact hk
          · exact absurd (h3 ▸ h2) h4
      · rw [h.2] at h2; exact absurd h2 (by simp)
    · rename_i h2
      simp only [JsMap.has_set]
      constructor
      · rintro (hk | hk)
        · right
          refine ⟨hk, ?_, h.1⟩
          intro h3; apply h2; left; rw [← hk]; exact h3
        · exact Or.inl hk
      · rintro (hk | ⟨h3, _, _⟩)
        · exact Or.inr hk
        · exact Or.inl h3
  · rename_i h
    constructor
    · intro hk; exact Or.inl hk
    · rintro (hk | ⟨h3, _, h5⟩)
      · exact hk
      · by_contra hc
        apply h
        refine ⟨h5, ?_⟩
        rw [← h3]
        simpa using hc

theorem storeAll_has (l : List RemoteJob) (s : AppState) (k : String) :
    JsMap.has k (l.foldl storeJob s).pollingIntervals = true ↔
      (JsMap.has k s.pollingIntervals = true ∨
        (k ≠ "" ∧ ∃ job ∈ l, job.job_id = k ∧ isActive job.status = true)) := by
  induction l generalizing s with
  | nil => simp
  | cons j l ih =>
    rw [List.foldl_cons, ih, storeJob_has]
    constructor
    · rintro ((hk | ⟨h1, h2, h3⟩) | ⟨h1, job, hm, h2, h3⟩)
      · exact Or.inl hk
      · exact Or.inr ⟨h2, j, List.mem_cons_self _ _, h1.symm, h3⟩
      · exact Or.inr ⟨h1, job, List.mem_cons_of_mem _ hm, h2, h3⟩
    · rintro (hk | ⟨h1, job, hm, h2, h3⟩)
      · exact Or.inl (Or.inl hk)
      · rcases List.mem_cons.mp hm with hm | hm
        · subst hm; exact Or.inl (Or.inr ⟨h2.symm, h1, h3⟩)
        · exact Or.inr ⟨h1, job, hm, h2, h3⟩

theorem storeAll_get (l : List RemoteJob) (s : AppState) (k : String) :
    JsMap.get k (l.foldl storeJob s).activeJobs =
      match lastFetched k l with
      | some job => some (jobOfRemote job)
      | none => JsMap.get k s.activeJobs := by
  induction l generalizing s with
  | nil => simp [lastFetched]
  | cons j l ih =>
    rw [List.foldl_cons, ih]
    simp only [lastFetched]
    cases lastFetched k l with
    | some later => rfl
    | none =>
      simp only [storeJob_activeJobs]
      by_cases h : j.job_id = k
      · subst h; simp [JsMap.get_set_self]
      · simp [h, JsMap.get_set_ne _ _ _ _ (Ne.symm h)]

theorem loadJobs_ok_has (jobs : List RemoteJob) (render : Bool) (s : AppState) (k : String) :
    JsMap.has k (loadJobs (.ok (some jobs)) render s).pollingIntervals = true ↔
      ((JsMap.has k s.pollingIntervals = true ∧ fetchedActive jobs k = true) ∨
        (k ≠ "" ∧ ∃ job ∈ jobs, job.job_id = k ∧ isActive job.status = true)) := by
  have key : JsMap.has k (jobs.foldl storeJob
      { s.pollingIntervals.foldl (stopStalePoller jobs) s with activeJobs := [] }).pollingIntervals
        = true ↔
      ((JsMap.has k s.pollingIntervals = true ∧ fetchedActive jobs k = true) ∨
        (k ≠ "" ∧ ∃ job ∈ jobs, job.job_id = k ∧ isActive job.status = true)) := by
    rw [storeAll_has]
    simp only
    rw [cleanup_has]
    constructor
    · rintro (⟨hk, h⟩ | h)
      · exact Or.inl ⟨hk, h ((JsMap.has_iff_mem_keys k _).mp hk)⟩
      · exact Or.inr h
    · rintro (⟨hk, h⟩ | h)
      · exact Or.inl ⟨hk, fun _ => h⟩
      · exact Or.inr h
  cases render <;> simpa [loadJobs, AppState.emit] using key

theorem loadJobs_ok_get (jobs : List RemoteJob) (render : Bool) (s : AppState) (k : String) :
    JsMap.get k (loadJobs (.ok (some jobs)) render s).activeJobs =
      (lastFetched k jobs).map jobOfRemote := by
  have key : JsMap.get k (jobs.foldl storeJob
      { s.pollingIntervals.foldl (stopStalePoller jobs) s with activeJobs := [] }).activeJobs
        = (lastFetched k jobs).map jobOfRemote := by
    rw [storeAll_get]
    cases lastFetched k jobs <;> simp [JsMap.get]
  cases render <;> simpa [loadJobs, AppState.emit] using key

theorem lastFetched_some (k : String) (l : List RemoteJob) (job : RemoteJob)
    (h : lastFetched k l = some job) : job ∈ l ∧ job.job_id = k := by
  induction l with
  | nil => simp [lastFetched] at h
  | cons j l ih =>
    simp only [lastFetched] at h
    cases hl : lastFetched k l with
    | some later =>
      rw [hl] at h
      simp only [Option.some.injEq] at h
      subst h
      exact ⟨List.mem_cons_of_mem _ (ih hl).1, (ih hl).2⟩
    | none =>
      rw [hl] at h
      by_cases hj : j.job_id = k
      · simp only [hj, if_true, Option.some.injEq] at h
        subst h
        exact ⟨List.mem_cons_self _ _, hj⟩
      · simp [hj] at h

theorem lastFetched_isSome (k : String) (l : List RemoteJob) :
    (lastFetched k l).isSome = true ↔ k ∈ l.map (fun j => j.job_id) := by
  induction l with
  | nil => simp [lastFetched]
  | cons j l ih =>
    simp only [lastFetched, List.map_cons, List.mem_cons]
    cases hl : lastFetched k l with
    | some later =>
      have : k ∈ l.map (fun j => j.job_id) := ih.mp (by simp [hl])
      simp [this]
    | none =>
      have hn : ¬ k ∈ l.map (fun j => j.job_id) := fun hm => by
        have := ih.mpr hm
        simp [hl] at this
      by_cases hj : j.job_id = k
      · simp [hj]
      · have hj2 : ¬ k = j.job_id := fun e => hj e.symm
        simp [hj, hj2, hn]

theorem lastFetched_of_nodup (l : List RemoteJob) (job : RemoteJob)
    (hd : (l.map (fun j => j.job_id)).Nodup) (hm : job ∈ l) :
    lastFetched job.job_id l = some job := by
  induction l with
  | nil => simp at hm
  | cons j l ih =>
    simp only [List.map_cons, List.nodup_cons] at hd
    simp only [lastFetched]
    rcases List.mem_cons.mp hm with h | h
    · subst h
      have hn : lastFetched job.job_id l = none := by
        cases hl : lastFetched job.job_id l with
        | none => rfl
        | some later =>
          exfalso
          apply hd.1
          exact (lastFetched_isSome _ _).mp (by simp [hl])
      simp [hn]
    · rw [ih hd.2 h]

theorem find_of_nodup (l : List RemoteJob) (job : RemoteJob)
    (hd : (l.map (fun j => j.job_id)).Nodup) (hm : job ∈ l) :
    l.find? (fun j => decide (j.job_id = job.job_id)) = some job := by
  induction l with
  | nil => simp at hm
  | cons j l ih =>
    simp only [List.map_cons, List.nodup_cons] at hd
    rcases List.mem_cons.mp hm with h | h
    · subst h; simp
    · have hne : ¬ j.job_id = job.job_id := fun e => hd.1 (by
        rw [e]; exact List.mem_map.mpr ⟨job, h, rfl⟩)
      rw [List.find?_cons_of_neg _ (by simpa using hne)]
      exact ih hd.2 h

theorem fetchedActive_iff_of_nodup (l : List RemoteJob) (k : String)
    (hd : (l.map (fun j => j.job_id)).Nodup) :
    fetchedActive l k = true ↔ ∃ job ∈ l, job.job_id = k ∧ isActive job.status = true := by
  constructor
  · intro h
    unfold fetchedActive at h
    cases hf : l.find? (fun j => decide (j.job_id = k)) with
    | none => rw [hf] at h; simp at h
    | some job =>
      rw [hf] at h
      have h1 := List.find?_some hf
      exact ⟨job, List.mem_of_find?_eq_some hf, by simpa using h1, h⟩
  · rintro ⟨job, hm, hk, ha⟩
    subst hk
    unfold fetchedActive
    rw [find_of_nodup l job hd hm]
    exact ha

/-! ## Lemmas about the timer callback -/

theorem jsOr_idem (a b : JsVal) : jsOr a (jsOr a b) = jsOr a b := by
  unfold jsOr
  cases h : a.truthy <;> simp

theorem mergeJobData_idem (job : Job) (jobData : JobData) :
    mergeJobData (mergeJobData job jobData) jobData = mergeJobData job jobData := by
  simp [mergeJobData, jsOr_idem]

theorem pollResponse_success_activeJobs (interval : Nat) (jobId : String) (jobData : JobData)
    (s : AppState) :
    (pollResponse interval jobId (.success jobData) s).activeJobs =
      match JsMap.get jobId s.activeJobs with
      | none => s.activeJobs
      | some job => JsMap.set jobId (mergeJobData job jobData) s.activeJobs := by
  unfold pollResponse
  cases JsMap.get jobId s.activeJobs with
  | none => rfl
  | some job =>
    simp only
    split <;> simp [AppState.emit, clearInterval]

theorem pollResponse_failure_activeJobs (interval : Nat) (jobId : String) (s : AppState) :
    (pollResponse interval jobId .failure s).activeJobs = s.activeJobs := by
  simp [pollResponse, AppState.emit, clearInterval]

theorem has_delete_self {α : Type} (k : String) (m : JsMap α) :
    JsMap.has k (JsMap.delete k m) = false := by
  cases h : JsMap.has k (JsMap.delete k m) with
  | false => rfl
  | true => exact absurd rfl ((JsMap.has_delete k k m).mp h).1

theorem has_of_get {α : Type} (k : String) (m : JsMap α) (v : α)
    (h : JsMap.get k m = some v) : JsMap.has k m = true := by
  rw [JsMap.has_eq_isSome_get, h]; rfl

/-! ## The claims -/

/-- C1 (counterexample): a sync whose list holds one running job with the empty
identifier stores that job as running and starts no poller for it, so the keys
of `pollingIntervals` are not the identifiers of the active registry entries. -/
theorem loadJobs_empty_identifier_unpolled :
    ([sampleJob "" "running"].map (fun j => j.job_id)).Nodup ∧
    ¬ (JsMap.has ""
          (loadJobs (.ok (some [sampleJob "" "running"])) true AppState.initial).pollingIntervals
            = true ↔
        ∃ job, JsMap.get ""
            (loadJobs (.ok (some [sampleJob "" "running"])) true AppState.initial).activeJobs
              = some job ∧ isActive job.status = true) := by
  refine ⟨by decide, ?_⟩
  intro h
  have hp : JsMap.has ""
      (loadJobs (.ok (some [sampleJob "" "running"])) true AppState.initial).pollingIntervals
        = false := by decide
  rw [h.mpr ⟨jobOfRemote (sampleJob "" "running"), by decide, by decide⟩] at hp
  exact absurd hp (by decide)

/-- C1 (amended): after a successful `loadJobs` on a list with pairwise-distinct
identifiers, a non-empty identifier is a key of `pollingIntervals` exactly when
its entry in `activeJobs` has status pending or running. -/
theorem loadJobs_pollers_exact (s : AppState) (jobs : List RemoteJob) (render : Bool)
    (id : String) (hd : (jobs.map (fun j => j.job_id)).Nodup) (hid : id ≠ "") :
    JsMap.has id (loadJobs (.ok (some jobs)) render s).pollingIntervals = true ↔
      ∃ job, JsMap.get id (loadJobs (.ok (some jobs)) render s).activeJobs = some job ∧
        isActive job.status = true := by
  rw [loadJobs_ok_has, loadJobs_ok_get]
  constructor
  · intro h
    have hex : ∃ job ∈ jobs, job.job_id = id ∧ isActive job.status = true := by
      rcases h with ⟨_, h⟩ | ⟨_, h⟩
      · exact (fetchedActive_iff_of_nodup jobs id hd).mp h
      · exact h
    obtain ⟨job, hm, hk, ha⟩ := hex
    subst hk
    refine ⟨jobOfRemote job, ?_, ha⟩
    rw [lastFetched_of_nodup jobs job hd hm]; rfl
  · rintro ⟨e, he, ha⟩
    cases hl : lastFetched id jobs with
    | none => rw [hl] at he; simp at he
    | some job =>
      rw [hl] at he
      simp only [Option.map_some', Option.some.injEq] at he
      subst he
      obtain ⟨hm, hk⟩ := lastFetched_some id jobs job hl
      exact Or.inr ⟨hid, job, hm, hk, ha⟩

/-- C1 (witness): the amended statement at a sync that lists "a" completed and
"b" pending, run on the state that already polls "a". -/
theorem loadJobs_pollers_exact_witness :
    ([sampleJob "a" "completed", sampleJob "b" "pending"].map (fun j => j.job_id)).Nodup ∧
    "b" ≠ "" ∧
    (JsMap.has "b" (loadJobs (.ok (some [sampleJob "a" "completed", sampleJob "b" "pending"]))
        true trackedState).pollingIntervals = true ↔
      ∃ job, JsMap.get "b" (loadJobs (.ok (some [sampleJob "a" "completed",
          sampleJob "b" "pending"])) true trackedState).activeJobs = some job ∧
        isActive job.status = true) :=
  ⟨by decide, by decide,
    loadJobs_pollers_exact trackedState [sampleJob "a" "completed", sampleJob "b" "pending"]
      true "b" (by decide) (by decide)⟩

/-- C2 (failing run): job "a" stays running on the server; timer 1 fires twice
before either request settles and both requests fail, with a sync after each
failure. After the second failure "a" has no entry in `pollingIntervals` while
timer 2 is live, and after the next sync two live timers poll "a". -/
theorem stale_poll_failure_duplicates_timer :
    (run AppState.initial (pollRaceSchedule.take 6)).map pollerSummary = some (false, 1) ∧
    (run AppState.initial pollRaceSchedule).map pollerSummary = some (true, 2) := by
  decide

/-- C3 (counterexample): the stored entry of "a" has status running and a
metrics object; a successful poll whose body has no `status` property and an
empty `metrics` object leaves the entry with status `undefined` and empty
metrics. -/
theorem pollResponse_overwrites_status_and_metrics :
    (JsMap.get "a" metricsState.activeJobs).map (fun job => (job.status, job.metrics))
      = some (.str "running", .obj [("loss", .num 2)]) ∧
    statuslessData.status = .undefined ∧
    (JsMap.get "a" (pollResponse 1 "a" (.success statuslessData) metricsState).activeJobs).map
        (fun job => (job.status, job.metrics))
      = some (.undefined, .obj []) := by
  decide

/-- C3 (amended): a successful poll of a tracked job always stores the body's
`status`, also when it is missing; each of `progress`, `results` and `metrics`
keeps its stored value when the body's value is missing or otherwise falsy and
takes the body's value when it is truthy (every object counts as truthy); the
identifier, name, model type and creation timestamp are kept. -/
theorem pollResponse_merges_fields (s : AppState) (interval : Nat) (id : String)
    (jobData : JobData) (job : Job) (hj : JsMap.get id s.activeJobs = some job) :
    ∃ merged, JsMap.get id (pollResponse interval id (.success jobData) s).activeJobs
        = some merged ∧
      merged.status = jobData.status ∧
      (jobData.progress.truthy = false → merged.progress = job.progress) ∧
      (jobData.results.truthy = false → merged.results = job.results) ∧
      (jobData.metrics.truthy = false → merged.metrics = job.metrics) ∧
      (jobData.progress.truthy = true → merged.progress = jobData.progress) ∧
      (jobData.results.truthy = true → merged.results = jobData.results) ∧
      (jobData.metrics.truthy = true → merged.metrics = jobData.metrics) ∧
      JsVal.truthy .undefined = false ∧
      merged.id = job.id ∧ merged.name = job.name ∧ merged.model_type = job.model_type ∧
      merged.created_at = job.created_at := by
  refine ⟨mergeJobData job jobData, ?_, rfl, ?_, ?_, ?_, ?_, ?_, ?_, rfl, rfl, rfl, rfl, rfl⟩
  · rw [pollResponse_success_activeJobs, hj]
    exact JsMap.get_set_self _ _ _
  all_goals intro h; simp [mergeJobData, jsOr, h]

/-- C3 (witness): the amended statement at the tracked job with metrics on
record and a body that reports completion. -/
theorem pollResponse_merges_fields_witness :
    JsMap.get "a" metricsState.activeJobs =
        some { id := "a", name := .str "run", model_type := .str "yolo",
               status := .str "running", progress := .num 40,
               created_at := .str "2025-01-01T00:00:00", results := .undefined,
               metrics := .obj [("loss", .num 2)] } ∧
    ∃ merged, JsMap.get "a" (pollResponse 1 "a" (.success completedData) metricsState).activeJobs
        = some merged ∧
      merged.status = .str "completed" ∧ merged.progress = .num 100 ∧
      merged.metrics = .obj [("loss", .num 2)] := by
  refine ⟨by decide, ?_⟩
  obtain ⟨merged, hg, hs, _, _, hm, hp, _, _, _⟩ :=
    pollResponse_merges_fields metricsState 1 "a" completedData _
      (show JsMap.get "a" metricsState.activeJobs = some _ from rfl)
  exact ⟨merged, hg, hs, hp (by decide), hm (by decide)⟩

/-- C4: the merge of the timer callback is idempotent, on one entry and on the
registry: a second successful poll with the same body leaves `activeJobs` as
the first one left it. -/
theorem pollResponse_idempotent (s : AppState) (interval : Nat) (id : String)
    (jobData : JobData) :
    (∀ job, mergeJobData (mergeJobData job jobData) jobData = mergeJobData job jobData) ∧
    (pollResponse interval id (.success jobData)
        (pollResponse interval id (.success jobData) s)).activeJobs =
      (pollResponse interval id (.success jobData) s).activeJobs := by
  refine ⟨fun job => mergeJobData_idem job jobData, ?_⟩
  rw [pollResponse_success_activeJobs interval id jobData
    (pollResponse interval id (.success jobData) s)]
  rw [pollResponse_success_activeJobs interval id jobData s]
  cases hg : JsMap.get id s.activeJobs with
  | none => simp only [hg]
  | some job =>
    simp only [JsMap.get_set_self, mergeJobData_idem, JsMap.set_set]

/-- C5: when the single-job request of a poll tick fails while `id` has a
poller, `id` is no longer a key of `pollingIntervals` afterwards and
`activeJobs` is what it was. -/
theorem pollResponse_failure_stops_poller (s : AppState) (interval : Nat) (id : String)
    (hp : JsMap.has id s.pollingIntervals = true) :
    JsMap.has id (pollResponse interval id .failure s).pollingIntervals = false ∧
    (pollResponse interval id .failure s).activeJobs = s.activeJobs := by
  have _ := hp
  refine ⟨?_, pollResponse_failure_activeJobs interval id s⟩
  simp only [pollResponse, AppState.emit, clearInterval]
  exact has_delete_self id s.pollingIntervals

/-- C5 (witness): the failed poll of the tracked running job "a". -/
theorem pollResponse_failure_stops_poller_witness :
    JsMap.has "a" trackedState.pollingIntervals = true ∧
    JsMap.has "a" (pollResponse 1 "a" .failure trackedState).pollingIntervals = false ∧
    (pollResponse 1 "a" .failure trackedState).activeJobs = trackedState.activeJobs :=
  ⟨by decide, pollResponse_failure_stops_poller trackedState 1 "a" (by decide)⟩

/-- C6 (counterexample): after a sync has started a poller for "a" and a
confirmed `deleteJob` has removed its registry entry, "a" has a poller; a
successful poll that reports completion leaves "a" in `pollingIntervals`. -/
theorem pollResponse_terminal_keeps_untracked_poller :
    JsMap.has "a" untrackedState.pollingIntervals = true ∧
    isActive completedData.status = false ∧
    JsMap.has "a" (pollResponse 1 "a" (.success completedData) untrackedState).pollingIntervals
      = true := by
  decide

/-- C6 (amended): when `id` has a poller and a registry entry, a successful poll
whose status is neither pending nor running removes `id` from
`pollingIntervals`. -/
theorem pollResponse_terminal_stops_poller (s : AppState) (interval : Nat) (id : String)
    (jobData : JobData) (job : Job) (hp : JsMap.has id s.pollingIntervals = true)
    (hj : JsMap.get id s.activeJobs = some job) (ht : isActive jobData.status = false) :
    JsMap.has id (pollResponse interval id (.success jobData) s).pollingIntervals = false := by
  have _ := hp
  have hm : isActive (mergeJobData job jobData).status = false := ht
  simp only [pollResponse, hj, hm, if_true, AppState.emit, clearInterval]
  exact has_delete_self id s.pollingIntervals

/-- C6 (witness): the tracked running job "a" polled with a body that reports
completion. -/
theorem pollResponse_terminal_stops_poller_witness :
    JsMap.has "a" trackedState.pollingIntervals = true ∧
    isActive completedData.status = false ∧
    JsMap.has "a" (pollResponse 1 "a" (.success completedData) trackedState).pollingIntervals
      = false :=
  ⟨by decide, by decide,
    pollResponse_terminal_stops_poller trackedState 1 "a" completedData
      (jobOfRemote (sampleJob "a" "running")) (by decide) (by decide) (by decide)⟩

/-- C7: after a successful `loadJobs` on a list with pairwise-distinct
identifiers, an identifier that had a poller and is missing from the list, or
listed with a status that is neither pending nor running, has no poller; and
when it is listed, its registry entry carries the listed status. -/
theorem loadJobs_stops_stale_pollers (s : AppState) (jobs : List RemoteJob) (render : Bool)
    (id : String) (hd : (jobs.map (fun j => j.job_id)).Nodup)
    (hp : JsMap.has id s.pollingIntervals = true)
    (hstale : (∀ job ∈ jobs, job.job_id ≠ id) ∨
      ∃ job ∈ jobs, job.job_id = id ∧ isActive job.status = false) :
    JsMap.has id (loadJobs (.ok (some jobs)) render s).pollingIntervals = false ∧
    ∀ job ∈ jobs, job.job_id = id →
      ∃ entry, JsMap.get id (loadJobs (.ok (some jobs)) render s).activeJobs = some entry ∧
        entry.status = job.status := by
  have _ := hp
  have hno : ¬ ∃ job ∈ jobs, job.job_id = id ∧ isActive job.status = true := by
    rintro ⟨job, hm, hk, ha⟩
    rcases hstale with h | ⟨other, hm2, hk2, ha2⟩
    · exact h job hm hk
    · have h1 := lastFetched_of_nodup jobs job hd hm
      have h2 := lastFetched_of_nodup jobs other hd hm2
      rw [hk] at h1
      rw [hk2, h1] at h2
      simp only [Option.some.injEq] at h2
      subst h2
      rw [ha] at ha2
      exact absurd ha2 (by decide)
  constructor
  · cases h : JsMap.has id (loadJobs (.ok (some jobs)) render s).pollingIntervals with
    | false => rfl
    | true =>
      exfalso
      rcases (loadJobs_ok_has jobs render s id).mp h with ⟨_, h1⟩ | ⟨_, h1⟩
      · exact hno ((fetchedActive_iff_of_nodup jobs id hd).mp h1)
      · exact hno h1
  · intro job hm hk
    subst hk
    refine ⟨jobOfRemote job, ?_, rfl⟩
    rw [loadJobs_ok_get, lastFetched_of_nodup jobs job hd hm]; rfl

/-- C7 (witness): job "a" was seen running and has a poller; the next sync lists
it as completed. -/
theorem loadJobs_stops_stale_pollers_witness :
    JsMap.has "a" trackedState.pollingIntervals = true ∧
    JsMap.has "a"
      (loadJobs (.ok (some [sampleJob "a" "completed"])) true trackedState).pollingIntervals
        = false ∧
    ∀ job ∈ [sampleJob "a" "completed"], job.job_id = "a" →
      ∃ entry, JsMap.get "a"
          (loadJobs (.ok (some [sampleJob "a" "completed"])) true trackedState).activeJobs
            = some entry ∧ entry.status = job.status :=
  ⟨by decide,
    loadJobs_stops_stale_pollers trackedState [sampleJob "a" "completed"] true "a"
      (by decide) (by decide)
      (Or.inr ⟨sampleJob "a" "completed", List.mem_singleton.mpr rfl, rfl, by decide⟩)⟩

/-- C8: when the list request fails, `loadJobs` leaves `activeJobs`,
`pollingIntervals` and the live timers as they were, whether or not it was
asked to render. -/
theorem loadJobs_failure_keeps_state (s : AppState) (render : Bool) :
    (loadJobs .failure render s).activeJobs = s.activeJobs ∧
    (loadJobs .failure render s).pollingIntervals = s.pollingIntervals ∧
    (loadJobs .failure render s).timers = s.timers := by
  cases render <;> simp [loadJobs, AppState.emit]

/-- C9: after a successful `loadJobs` the identifiers of `activeJobs` are those
of the fetched list, whatever the registry held before, and each entry is built
from the last listed job with its identifier: same name, model type, status,
creation timestamp and results, progress 0 when the job has none and an empty
metrics object when the job has none. -/
theorem loadJobs_rebuilds_registry (s : AppState) (jobs : List RemoteJob) (render : Bool) :
    (∀ id, JsMap.has id (loadJobs (.ok (some jobs)) render s).activeJobs = true ↔
      id ∈ jobs.map (fun j => j.job_id)) ∧
    (∀ id entry, JsMap.get id (loadJobs (.ok (some jobs)) render s).activeJobs = some entry →
      ∃ job, lastFetched id jobs = some job ∧ job ∈ jobs ∧ job.job_id = id ∧
        entry.id = id ∧ entry.name = job.name ∧ entry.model_type = job.model_type ∧
        entry.status = job.status ∧ entry.created_at = job.created_at ∧
        entry.results = job.results ∧
        (job.progress = .undefined → entry.progress = .num 0) ∧
        (job.metrics = .undefined → entry.metrics = .obj []) ∧
        (job.progress.truthy = true → entry.progress = job.progress) ∧
        (job.metrics.truthy = true → entry.metrics = job.metrics)) := by
  constructor
  · intro id
    rw [JsMap.has_eq_isSome_get, loadJobs_ok_get, Option.isSome_map']
    exact lastFetched_isSome id jobs
  · intro id entry he
    rw [loadJobs_ok_get] at he
    cases hl : lastFetched id jobs with
    | none => rw [hl] at he; simp at he
    | some job =>
      rw [hl] at he
      simp only [Option.map_some', Option.some.injEq] at he
      subst he
      obtain ⟨hm, hk⟩ := lastFetched_some id jobs job hl
      refine ⟨job, rfl, hm, hk, hk, rfl, rfl, rfl, rfl, rfl, ?_, ?_, ?_, ?_⟩
      · intro h; simp [jobOfRemote, jsOr, h, JsVal.truthy]
      · intro h; simp [jobOfRemote, jsOr, h, JsVal.truthy]
      · intro h; simp [jobOfRemote, jsOr, h]
      · intro h; simp [jobOfRemote, jsOr, h]

/-- C9 (witness): a registry that tracks "a" is rebuilt from a list that holds
only "b": "a" is gone and the entry of "b" has the listed status, progress 0 and
empty metrics. -/
theorem loadJobs_rebuilds_registry_witness :
    JsMap.has "a" trackedState.activeJobs = true ∧
    JsMap.has "a" (loadJobs (.ok (some [sampleJob "b" "pending"])) false trackedState).activeJobs
      = false ∧
    ∃ entry, JsMap.get "b"
        (loadJobs (.ok (some [sampleJob "b" "pending"])) false trackedState).activeJobs
          = some entry ∧
      entry.status = .str "pending" ∧ entry.progress = .num 0 ∧ entry.metrics = .obj [] := by
  have h := loadJobs_rebuilds_registry trackedState [sampleJob "b" "pending"] false
  refine ⟨by decide, ?_, ?_⟩
  · cases hh : JsMap.has "a"
        (loadJobs (.ok (some [sampleJob "b" "pending"])) false trackedState).activeJobs with
    | false => rfl
    | true => exact absurd ((h.1 "a").mp hh) (by decide)
  · obtain ⟨job, hl, _, _, _, _, _, hs, _, _, hp, hm, _, _⟩ :=
      h.2 "b" (jobOfRemote (sampleJob "b" "pending")) (by decide)
    have hjob : job = sampleJob "b" "pending" := by
      have : lastFetched "b" [sampleJob "b" "pending"] = some (sampleJob "b" "pending") := by
        decide
      rw [this] at hl
      exact (Option.some.inj hl).symm
    subst hjob
    exact ⟨jobOfRemote (sampleJob "b" "pending"), by decide, hs, hp rfl, hm rfl⟩

/-- C10: a settled poll tick for `id`, failed or successful, terminal or not,
leaves the keys of `activeJobs` and every entry other than that of `id` as they
were; when `id` has no entry, `activeJobs` is unchanged and a successful
response changes nothing at all (no error path is taken). -/
theorem pollResponse_registry_frame (s : AppState) (interval : Nat) (id : String)
    (outcome : PollOutcome) :
    JsMap.keys (pollResponse interval id outcome s).activeJobs = JsMap.keys s.activeJobs ∧
    (∀ k, k ≠ id →
      JsMap.get k (pollResponse interval id outcome s).activeJobs = JsMap.get k s.activeJobs) ∧
    (JsMap.get id s.activeJobs = none →
      (pollResponse interval id outcome s).activeJobs = s.activeJobs ∧
      ∀ jobData, pollResponse interval id (.success jobData) s = s) := by
  cases outcome with
  | failure =>
    rw [pollResponse_failure_activeJobs]
    refine ⟨rfl, fun _ _ => rfl, fun hn => ⟨rfl, fun jobData => ?_⟩⟩
    simp [pollResponse, hn]
  | success jobData =>
    rw [pollResponse_success_activeJobs]
    cases hg : JsMap.get id s.activeJobs with
    | none =>
      refine ⟨rfl, fun _ _ => rfl, fun _ => ⟨rfl, fun d => ?_⟩⟩
      simp [pollResponse, hg]
    | some job =>
      refine ⟨?_, fun k hk => ?_, fun hn => by simp at hn⟩
      · exact JsMap.keys_set_of_has _ _ _ (has_of_get _ _ _ hg)
      · exact JsMap.get_set_ne _ _ _ _ hk

/-- C10 (witness): with "a" and "b" tracked, a completed poll of "a" keeps both
keys and the entry of "b"; with "a" deleted from the registry, a successful
poll of "a" changes nothing. -/
theorem pollResponse_registry_frame_witness :
    JsMap.keys (pollResponse 1 "a" (.success completedData)
        (loadJobs (.ok (some [sampleJob "a" "running", sampleJob "b" "running"]))
          true AppState.initial)).activeJobs = ["a", "b"] ∧
    JsMap.get "b" (pollResponse 1 "a" (.success completedData)
        (loadJobs (.ok (some [sampleJob "a" "running", sampleJob "b" "running"]))
          true AppState.initial)).activeJobs = some (jobOfRemote (sampleJob "b" "running")) ∧
    JsMap.get "a" untrackedState.activeJobs = none ∧
    pollResponse 1 "a" (.success completedData) untrackedState = untrackedState := by
  have h1 := pollResponse_registry_frame
    (loadJobs (.ok (some [sampleJob "a" "running", sampleJob "b" "running"]))
      true AppState.initial) 1 "a" (.success completedData)
  have h2 := pollResponse_registry_frame untrackedState 1 "a" .failure
  refine ⟨?_, ?_, by decide, (h2.2.2 (by decide)).2 completedData⟩
  · rw [h1.1]; decide
  · rw [h1.2.1 "b" (by decide)]; decide
/-! ## Lemmas about `deleteJob` and the connectivity check -/

theorem deleteJob_accepted (jobId : String) (s : AppState) (h1 : jobId ≠ "")
    (h2 : jobId ≠ "undefined") :
    (deleteJob jobId true true s).activeJobs = JsMap.delete jobId s.activeJobs ∧
    (deleteJob jobId true true s).pollingIntervals = s.pollingIntervals := by
  simp [deleteJob, h1, h2, AppState.emit]

theorem deleteJob_not_accepted (jobId : String) (confirmed responseOk : Bool) (s : AppState)
    (h : jobId = "" ∨ jobId = "undefined" ∨ confirmed = false ∨ responseOk = false) :
    (deleteJob jobId confirmed responseOk s).activeJobs = s.activeJobs ∧
    (deleteJob jobId confirmed responseOk s).pollingIntervals = s.pollingIntervals := by
  unfold deleteJob
  split
  · simp [AppState.emit]
  · split
    · simp
    · split
      · simp [AppState.emit]
      · rename_i h3 h4 h5
        rcases h with h | h | h | h
        · exact absurd (Or.inl h) h3
        · exact absurd (Or.inr h) h3
        · exact absurd h h4
        · exact absurd h h5

theorem checkApiConnection_failed (s : AppState) (h : s.connectionCheckAttempts ≤ 3) :
    (checkApiConnection true false s).2 = true ∧
    (checkApiConnection true false s).1.apiConnected = false ∧
    (checkApiConnection true false s).1.connectionCheckAttempts
      = s.connectionCheckAttempts + 1 := by
  have hn : ¬ s.connectionCheckAttempts > 3 := by omega
  simp [checkApiConnection, checkApiConnectionStart, checkApiConnectionDone, setOfflineMode,
    AppState.emit, hn]

theorem checkApiConnection_no_element (s : AppState) (responseOk : Bool)
    (h : s.connectionCheckAttempts ≤ 3) :
    checkApiConnection false responseOk s = (s, false) := by
  have hn : ¬ s.connectionCheckAttempts > 3 := by omega
  simp [checkApiConnection, checkApiConnectionStart, hn]

theorem checkApiConnection_blocked (s : AppState) (hasStatusElement responseOk : Bool)
    (h : s.connectionCheckAttempts > 3) (hc : s.apiConnected = false) :
    (checkApiConnection hasStatusElement responseOk s).2 = false ∧
    (checkApiConnection hasStatusElement responseOk s).1.apiConnected = false ∧
    (checkApiConnection hasStatusElement responseOk s).1.connectionCheckAttempts
      = s.connectionCheckAttempts := by
  cases hasStatusElement <;>
    simp [checkApiConnection, checkApiConnectionStart, setOfflineMode, AppState.emit, h, hc]

theorem checkApiConnectionAll_blocked (hasStatusElement : Bool) (more : List Bool)
    (s : AppState) (h : s.connectionCheckAttempts > 3) (hc : s.apiConnected = false) :
    (checkApiConnectionAll hasStatusElement more s).2 = 0 ∧
    (checkApiConnectionAll hasStatusElement more s).1.apiConnected = false ∧
    (checkApiConnectionAll hasStatusElement more s).1.connectionCheckAttempts
      = s.connectionCheckAttempts := by
  induction more generalizing s with
  | nil => exact ⟨rfl, hc, rfl⟩
  | cons responseOk rest ih =>
    obtain ⟨b1, b2, b3⟩ := checkApiConnection_blocked s hasStatusElement responseOk h hc
    obtain ⟨i1, i2, i3⟩ := ih (checkApiConnection hasStatusElement responseOk s).1
      (by rw [b3]; exact h) b2
    simp only [checkApiConnectionAll]
    refine ⟨?_, i2, ?_⟩
    · rw [i1, b1]; simp
    · rw [i3, b3]

/-! ## The claims, continued -/

/-- C11: once a `deleteJob(x)` that passed the identifier guard has been
confirmed and the delete request has been answered with success, `activeJobs`
has no entry for `x` and every other entry is what it was; the follow-up sync
is only requested, nothing of it has run. -/
theorem deleteJob_evicts_entry (s : AppState) (x : String) (hx : x ≠ "")
    (hu : x ≠ "undefined") :
    JsMap.has x (deleteJob x true true s).activeJobs = false ∧
    ∀ k, k ≠ x →
      JsMap.get k (deleteJob x true true s).activeJobs = JsMap.get k s.activeJobs := by
  rw [(deleteJob_accepted x s hx hu).1]
  exact ⟨has_delete_self x s.activeJobs, fun k hk => JsMap.get_delete_ne k x s.activeJobs hk⟩

/-- C11 (witness): deleting "a" from a registry that tracks "a" and "b". -/
theorem deleteJob_evicts_entry_witness :
    "a" ≠ "" ∧ "a" ≠ "undefined" ∧
    JsMap.has "a" (deleteJob "a" true true
      (loadJobs (.ok (some [sampleJob "a" "completed", sampleJob "b" "running"]))
        true AppState.initial)).activeJobs = false ∧
    JsMap.get "b" (deleteJob "a" true true
      (loadJobs (.ok (some [sampleJob "a" "completed", sampleJob "b" "running"]))
        true AppState.initial)).activeJobs = some (jobOfRemote (sampleJob "b" "running")) := by
  have h := deleteJob_evicts_entry
    (loadJobs (.ok (some [sampleJob "a" "completed", sampleJob "b" "running"]))
      true AppState.initial) "a" (by decide) (by decide)
  refine ⟨by decide, by decide, h.1, ?_⟩
  rw [h.2 "b" (by decide)]
  decide

/-- C12: from `connectionCheckAttempts = 0`, after four consecutive calls of
`checkApiConnection` that each issued the probe and saw it fail, `apiConnected`
is false and the counter is 4; any further calls issue no probe and leave
`apiConnected` false and the counter at 4. -/
theorem four_failed_checks_go_offline (s : AppState) (hasStatusElement : Bool)
    (h0 : s.connectionCheckAttempts = 0)
    (hprobes :
      (checkApiConnectionAll hasStatusElement [false, false, false, false] s).2 = 4) :
    (checkApiConnectionAll hasStatusElement [false, false, false, false] s).1.apiConnected
      = false ∧
    (checkApiConnectionAll hasStatusElement
      [false, false, false, false] s).1.connectionCheckAttempts = 4 ∧
    ∀ (laterElement : Bool) (more : List Bool),
      (checkApiConnectionAll laterElement more
        (checkApiConnectionAll hasStatusElement [false, false, false, false] s).1).2 = 0 ∧
      (checkApiConnectionAll laterElement more
        (checkApiConnectionAll hasStatusElement
          [false, false, false, false] s).1).1.apiConnected = false ∧
      (checkApiConnectionAll laterElement more
        (checkApiConnectionAll hasStatusElement
          [false, false, false, false] s).1).1.connectionCheckAttempts = 4 := by
  cases hasStatusElement with
  | false =>
    exfalso
    have e1 := checkApiConnection_no_element s false (by omega)
    simp [checkApiConnectionAll, e1] at hprobes
  | true =>
    obtain ⟨_, _, a1⟩ := checkApiConnection_failed s (by omega)
    obtain ⟨_, _, a2⟩ := checkApiConnection_failed (checkApiConnection true false s).1
      (by omega)
    obtain ⟨_, _, a3⟩ := checkApiConnection_failed
      (checkApiConnection true false (checkApiConnection true false s).1).1 (by omega)
    obtain ⟨_, c4, a4⟩ := checkApiConnection_failed
      (checkApiConnection true false
        (checkApiConnection true false (checkApiConnection true false s).1).1).1 (by omega)
    have hfin : (checkApiConnectionAll true [false, false, false, false] s).1 =
        (checkApiConnection true false (checkApiConnection true false
          (checkApiConnection true false (checkApiConnection true false s).1).1).1).1 := rfl
    rw [hfin]
    have hcount : (checkApiConnection true false (checkApiConnection true false
          (checkApiConnection true false
            (checkApiConnection true false s).1).1).1).1.connectionCheckAttempts = 4 := by
      omega
    refine ⟨c4, hcount, fun laterElement more => ?_⟩
    obtain ⟨b1, b2, b3⟩ := checkApiConnectionAll_blocked laterElement more _
      (by rw [hcount]; decide) c4
    exact ⟨b1, b2, by rw [b3, hcount]⟩

/-- C12 (witness): four failed checks right after page load, then two more
calls. -/
theorem four_failed_checks_go_offline_witness :
    AppState.initial.connectionCheckAttempts = 0 ∧
    (checkApiConnectionAll true [false, false, false, false] AppState.initial).2 = 4 ∧
    offlineState.apiConnected = false ∧ offlineState.connectionCheckAttempts = 4 ∧
    (checkApiConnectionAll true [true, true] offlineState).2 = 0 ∧
    (checkApiConnectionAll true [true, true] offlineState).1.apiConnected = false ∧
    (checkApiConnectionAll true [true, true] offlineState).1.connectionCheckAttempts = 4 := by
  have h := four_failed_checks_go_offline AppState.initial true (by decide) (by decide)
  exact ⟨by decide, by decide, h.1, h.2.1, h.2.2 true [true, true]⟩

/-- After four failed checks the counter is 4 and the ceiling guard is in force:
the next call issues no probe, however the service would answer it, and leaves
`apiConnected` false and the counter at 4. -/
theorem checkApiConnection_blocked_while_healthy :
    offlineState.connectionCheckAttempts = 4 ∧
    (checkApiConnection true true offlineState).2 = false ∧
    (checkApiConnection true true offlineState).1.apiConnected = false ∧
    (checkApiConnection true true offlineState).1.connectionCheckAttempts = 4 := by
  decide

/-- C13: a `checkApiConnection` call whose health probe is answered with 2xx ends
with `apiConnected` true and `connectionCheckAttempts` 0, whatever the two fields
held before. The part of the call that runs on the answer does so from every
state; a whole call does so from every prior state from which it issues the
probe; and it issues the probe exactly when the counter is at most 3 and the
status indicator is on the page. -/
theorem checkApiConnection_success_connects (s : AppState) (hasStatusElement : Bool) :
    ((checkApiConnectionDone hasStatusElement true s).apiConnected = true ∧
      (checkApiConnectionDone hasStatusElement true s).connectionCheckAttempts = 0) ∧
    ((checkApiConnection hasStatusElement true s).2 = true →
      (checkApiConnection hasStatusElement true s).1.apiConnected = true ∧
      (checkApiConnection hasStatusElement true s).1.connectionCheckAttempts = 0) ∧
    ((checkApiConnection hasStatusElement true s).2 = true ↔
      (s.connectionCheckAttempts ≤ 3 ∧ hasStatusElement = true)) := by
  refine ⟨by simp [checkApiConnectionDone, AppState.emit], ?_, ?_⟩
  · intro hprobe
    by_cases hc : s.connectionCheckAttempts > 3
    · simp [checkApiConnection, checkApiConnectionStart, hc] at hprobe
    · cases hasStatusElement with
      | false => simp [checkApiConnection, checkApiConnectionStart, hc] at hprobe
      | true =>
        simp [checkApiConnection, checkApiConnectionStart, checkApiConnectionDone,
          AppState.emit, hc]
  · by_cases hc : s.connectionCheckAttempts > 3
    · have hn : ¬ s.connectionCheckAttempts ≤ 3 := by omega
      simp [checkApiConnection, checkApiConnectionStart, hc, hn]
    · have hle : s.connectionCheckAttempts ≤ 3 := by omega
      cases hasStatusElement <;>
        simp [checkApiConnection, checkApiConnectionStart, hc, hle]

/-- C13 (witness): after three failed checks, with `apiConnected` false and the
counter at 3, the next call issues its probe; answered with 2xx, it ends
connected with the counter back at 0. -/
theorem checkApiConnection_success_connects_witness :
    (checkApiConnectionAll true [false, false, false] AppState.initial).1.apiConnected
      = false ∧
    (checkApiConnectionAll true [false, false, false] AppState.initial).1.connectionCheckAttempts
      = 3 ∧
    (checkApiConnection true true
      (checkApiConnectionAll true [false, false, false] AppState.initial).1).2 = true ∧
    (checkApiConnection true true
      (checkApiConnectionAll true [false, false, false] AppState.initial).1).1.apiConnected
        = true ∧
    (checkApiConnection true true
      (checkApiConnectionAll true [false, false, false]
        AppState.initial).1).1.connectionCheckAttempts = 0 :=
  ⟨by decide, by decide, by decide,
    (checkApiConnection_success_connects
      (checkApiConnectionAll true [false, false, false] AppState.initial).1 true).2.1
      (by decide)⟩

/-! ## Lemmas about pollers and tracked jobs -/

theorem tracked_of_same {s t : AppState} (h : PollersTracked s)
    (ha : t.activeJobs = s.activeJobs) (hp : t.pollingIntervals = s.pollingIntervals) :
    PollersTracked t := by
  intro id hid
  rw [hp] at hid
  rw [ha]
  exact h id hid

theorem tracked_loadJobs_ok (jobs : List RemoteJob) (render : Bool) (s : AppState)
    (hd : (jobs.map (fun j => j.job_id)).Nodup) :
    PollersTracked (loadJobs (.ok (some jobs)) render s) := by
  intro id hid
  have hex : ∃ job ∈ jobs, job.job_id = id ∧ isActive job.status = true := by
    rcases (loadJobs_ok_has jobs render s id).mp hid with ⟨_, h⟩ | ⟨_, h⟩
    · exact (fetchedActive_iff_of_nodup jobs id hd).mp h
    · exact h
  obtain ⟨job, hm, hk, ha⟩ := hex
  subst hk
  refine ⟨jobOfRemote job, ?_, ha⟩
  rw [loadJobs_ok_get, lastFetched_of_nodup jobs job hd hm]; rfl

theorem pollResponse_failure_pollers (interval : Nat) (jobId : String) (s : AppState) :
    (pollResponse interval jobId .failure s).pollingIntervals
      = JsMap.delete jobId s.pollingIntervals := by
  simp [pollResponse, AppState.emit, clearInterval]

theorem pollResponse_success_pollers (interval : Nat) (jobId : String) (jobData : JobData)
    (s : AppState) (job : Job) (hj : JsMap.get jobId s.activeJobs = some job) :
    (pollResponse interval jobId (.success jobData) s).pollingIntervals =
      if isActive jobData.status = false then JsMap.delete jobId s.pollingIntervals
      else s.pollingIntervals := by
  have hm : (mergeJobData job jobData).status = jobData.status := rfl
  unfold pollResponse
  simp only [hj, hm]
  split <;> simp [AppState.emit, clearInterval]

theorem tracked_pollResponse (interval : Nat) (jobId : String) (outcome : PollOutcome)
    (s : AppState) (h : PollersTracked s) :
    PollersTracked (pollResponse interval jobId outcome s) := by
  intro id hid
  cases outcome with
  | failure =>
    rw [pollResponse_failure_pollers] at hid
    rw [pollResponse_failure_activeJobs]
    exact h id ((JsMap.has_delete id jobId _).mp hid).2
  | success jobData =>
    cases hg : JsMap.get jobId s.activeJobs with
    | none =>
      have hs : pollResponse interval jobId (.success jobData) s = s := by
        simp [pollResponse, hg]
      rw [hs] at hid ⊢
      exact h id hid
    | some job =>
      rw [pollResponse_success_pollers interval jobId jobData s job hg] at hid
      rw [pollResponse_success_activeJobs, hg]
      simp only
      by_cases ht : isActive jobData.status = false
      · rw [if_pos ht] at hid
        obtain ⟨hne, hold⟩ := (JsMap.has_delete id jobId _).mp hid
        rw [JsMap.get_set_ne id jobId _ _ hne]
        exact h id hold
      · rw [if_neg ht] at hid
        by_cases hk : id = jobId
        · subst hk
          refine ⟨mergeJobData job jobData, JsMap.get_set_self _ _ _, ?_⟩
          simpa [mergeJobData] using ht
        · rw [JsMap.get_set_ne id jobId _ _ hk]
          exact h id hid

theorem tracked_deleteJob (jobId : String) (responseOk : Bool) (s : AppState)
    (h : PollersTracked s)
    (hadm : responseOk = false ∨ JsMap.has jobId s.pollingIntervals = false) :
    PollersTracked (deleteJob jobId true responseOk s) := by
  by_cases hg : jobId = "" ∨ jobId = "undefined" ∨ true = false ∨ responseOk = false
  · obtain ⟨ha, hp⟩ := deleteJob_not_accepted jobId true responseOk s hg
    exact tracked_of_same h ha hp
  · have h1 : jobId ≠ "" := fun e => hg (Or.inl e)
    have h2 : jobId ≠ "undefined" := fun e => hg (Or.inr (Or.inl e))
    have h3 : responseOk = true := by
      cases responseOk with
      | true => rfl
      | false => exact absurd (Or.inr (Or.inr (Or.inr rfl))) hg
    subst h3
    have hnp : JsMap.has jobId s.pollingIntervals = false := by
      rcases hadm with e | e
      · exact absurd e (by decide)
      · exact e
    obtain ⟨ha, hp⟩ := deleteJob_accepted jobId s h1 h2
    intro id hid
    rw [hp] at hid
    rw [ha]
    have hne : id ≠ jobId := by
      intro e
      rw [e, hnp] at hid
      exact absurd hid (by decide)
    rw [JsMap.get_delete_ne id jobId _ hne]
    exact h id hid

theorem tracked_step (s t : AppState) (e : Event) (h : PollersTracked s)
    (hadm : e.admissible s = true) (hs : step s e = some t) : PollersTracked t := by
  cases e with
  | loadJobsDone resp render =>
    simp only [step, Option.some.injEq] at hs
    subst hs
    cases resp with
    | failure =>
      refine tracked_of_same h ?_ ?_ <;> cases render <;> simp [loadJobs, AppState.emit]
    | ok body =>
      cases body with
      | none => exact tracked_loadJobs_ok [] render s (by simp)
      | some jobs =>
        exact tracked_loadJobs_ok jobs render s (by simpa [Event.admissible] using hadm)
  | tickFired interval =>
    simp only [step] at hs
    cases hf : s.timers.find? (fun t => decide (t.1 = interval)) with
    | none => rw [hf] at hs; simp at hs
    | some timer =>
      rw [hf] at hs
      simp only [Option.some.injEq] at hs
      subst hs
      exact tracked_of_same h rfl rfl
  | pollDone interval jobId outcome =>
    simp only [step] at hs
    split at hs
    · simp only [Option.some.injEq] at hs
      subst hs
      exact tracked_pollResponse interval jobId outcome _ (tracked_of_same h rfl rfl)
    · simp at hs
  | deleteJobDone jobId responseOk =>
    simp only [step, Option.some.injEq] at hs
    subst hs
    refine tracked_deleteJob jobId responseOk s h ?_
    simp only [Event.admissible, Bool.or_eq_true, Bool.not_eq_true'] at hadm
    exact hadm

theorem tracked_runAdmissible (es : List Event) (s t : AppState) (h : PollersTracked s)
    (hr : runAdmissible s es = some t) : PollersTracked t := by
  induction es generalizing s with
  | nil =>
    simp only [runAdmissible, Option.some.injEq] at hr
    subst hr
    exact h
  | cons e es ih =>
    simp only [runAdmissible] at hr
    split at hr
    · rename_i hadm
      cases hs : step s e with
      | none => rw [hs] at hr; simp at hr
      | some s1 =>
        rw [hs] at hr
        exact ih s1 (tracked_step s s1 e h hadm hs) hr
    · simp at hr

theorem tracked_initial : PollersTracked AppState.initial := by
  intro id hid
  simp [AppState.initial, JsMap.has] at hid

/-! ## Lemmas about the job filters -/

theorem filterJobs_total (p : Job → Option Bool) (q : Job → Bool) (l : List Job)
    (h : ∀ job ∈ l, p job = some (q job)) : filterJobs p l = some (l.filter q) := by
  induction l with
  | nil => rfl
  | cons job rest ih =>
    have hj := h job (List.mem_cons_self _ _)
    have hr := ih (fun j hm => h j (List.mem_cons_of_mem _ hm))
    simp only [filterJobs, hj, hr, Option.map_some', List.filter_cons]

theorem jobMatches_running (toLowerCase : String → String) (job : Job)
    (hlow : ∀ w ∈ knownStatuses, toLowerCase w = w)
    (hst : ∃ w ∈ knownStatuses, job.status = .str w) :
    jobMatches toLowerCase "" "running" job = some (isActive job.status) := by
  obtain ⟨w, hw, hs⟩ := hst
  have hl := hlow w hw
  simp only [knownStatuses, List.mem_cons, List.mem_singleton, List.not_mem_nil, or_false]
    at hw
  rcases hw with rfl | rfl | rfl | rfl | rfl <;>
    simp [jobMatches, lowerOf, hs, hl, isActive]

theorem jobMatches_unfiltered (toLowerCase : String → String) (job : Job) :
    jobMatches toLowerCase "" "" job = some true := by
  simp [jobMatches]

/-! ## The claims, concluded -/

/-- C14 (counterexample): timer 1 polls "a"; while its request is in flight a
sync lists "a" as completed and removes the poller; the registry then shows
completed and "a" is not in `pollingIntervals`. When the request settles with a
body that says running, the entry of "a" is overwritten with running. -/
theorem late_poll_response_is_applied :
    (run AppState.initial (lateResponseSchedule.take 3)).map
        (fun s => (JsMap.has "a" s.pollingIntervals,
          (JsMap.get "a" s.activeJobs).map (fun job => job.status)))
      = some (false, some (.str "completed")) ∧
    (run AppState.initial lateResponseSchedule).map
        (fun s => (JsMap.get "a" s.activeJobs).map (fun job => job.status))
      = some (some (.str "running")) := by
  decide

/-- C14 (amended): when `id` is not in `pollingIntervals`, a settled single-job
request for `id` leaves `activeJobs` unchanged if the request failed or `id` has
no registry entry; a successful response for an `id` that still has an entry is
merged into that entry like any other. -/
theorem late_poll_response_effect (s : AppState) (interval : Nat) (id : String)
    (hp : JsMap.has id s.pollingIntervals = false) :
    (pollResponse interval id .failure s).activeJobs = s.activeJobs ∧
    (JsMap.get id s.activeJobs = none →
      ∀ jobData, (pollResponse interval id (.success jobData) s).activeJobs = s.activeJobs) ∧
    (∀ job jobData, JsMap.get id s.activeJobs = some job →
      (pollResponse interval id (.success jobData) s).activeJobs
        = JsMap.set id (mergeJobData job jobData) s.activeJobs) := by
  have _ := hp
  refine ⟨pollResponse_failure_activeJobs interval id s, fun hn jobData => ?_,
    fun job jobData hj => ?_⟩
  · rw [pollResponse_success_activeJobs, hn]
  · rw [pollResponse_success_activeJobs, hj]

/-- C14 (witness): the state after a sync has cancelled the poller of "a": a
failed late response changes nothing, a late response for the unknown job "b"
changes nothing, and a late success for "a" is merged. -/
theorem late_poll_response_effect_witness :
    JsMap.has "a" (loadJobs (.ok (some [sampleJob "a" "completed"])) true
      trackedState).pollingIntervals = false ∧
    (pollResponse 1 "a" .failure (loadJobs (.ok (some [sampleJob "a" "completed"])) true
      trackedState)).activeJobs
        = (loadJobs (.ok (some [sampleJob "a" "completed"])) true trackedState).activeJobs ∧
    (pollResponse 1 "a" (.success runningData)
      (loadJobs (.ok (some [sampleJob "a" "completed"])) true trackedState)).activeJobs
        = JsMap.set "a" (mergeJobData (jobOfRemote (sampleJob "a" "completed")) runningData)
            (loadJobs (.ok (some [sampleJob "a" "completed"])) true trackedState).activeJobs := by
  have h := late_poll_response_effect
    (loadJobs (.ok (some [sampleJob "a" "completed"])) true trackedState) 1 "a" (by decide)
  exact ⟨by decide, h.1, h.2.2 _ runningData (by decide)⟩

/-- C15 (counterexample): after a sync has started a poller for the running job
"a", an accepted delete of "a" leaves the poller of "a" without a registry entry;
and a single sync whose list names "a" twice, running and then completed,
leaves a poller for "a" while the registry shows completed. -/
theorem delete_or_duplicate_leaves_untracked_poller :
    (run AppState.initial deleteActiveSchedule).map
        (fun s => (JsMap.has "a" s.pollingIntervals, JsMap.get "a" s.activeJobs))
      = some (true, none) ∧
    (run AppState.initial duplicateListSchedule).map
        (fun s => (JsMap.has "a" s.pollingIntervals,
          (JsMap.get "a" s.activeJobs).map (fun job => job.status)))
      = some (true, some (.str "completed")) := by
  decide

/-- C15 (amended): in every state reached from the initial state by syncs
(failed, or successful with pairwise-distinct identifiers), timer ticks, settled
poll requests, and deletes that are either refused or aimed at an identifier
without a poller, every key of `pollingIntervals` has an entry in `activeJobs`
whose status is pending or running. -/
theorem admissible_runs_keep_pollers_tracked (es : List Event) (s : AppState)
    (hr : runAdmissible AppState.initial es = some s) (id : String)
    (hp : JsMap.has id s.pollingIntervals = true) :
    ∃ job, JsMap.get id s.activeJobs = some job ∧ isActive job.status = true :=
  tracked_runAdmissible es AppState.initial s tracked_initial hr id hp

/-- C15 (witness): the schedule with two failed polls and three syncs of the
running job "a" is admissible, and at its end "a" has a poller and a running
entry. -/
theorem admissible_runs_keep_pollers_tracked_witness :
    runAdmissible AppState.initial pollRaceSchedule = some pollRaceFinal ∧
    JsMap.has "a" pollRaceFinal.pollingIntervals = true ∧
    ∃ job, JsMap.get "a" pollRaceFinal.activeJobs = some job ∧ isActive job.status = true :=
  ⟨by decide, by decide,
    admissible_runs_keep_pollers_tracked pollRaceSchedule pollRaceFinal (by decide) "a"
      (by decide)⟩

/-- C16: when every registry status is one of pending, running, completed,
failed and cancelled (words that `toLowerCase` leaves as they are), the jobs
selected by `applyJobFilters` with no type filter and status filter "running"
are the jobs whose status is running or pending, as many as the running count
of `updateDashboardUI`; with both filters empty every registry entry is
selected. -/
theorem filters_agree_with_dashboard (toLowerCase : String → String) (s : AppState)
    (hlow : ∀ w ∈ knownStatuses, toLowerCase w = w)
    (hst : ∀ entry ∈ s.activeJobs, ∃ w ∈ knownStatuses, entry.2.status = .str w) :
    (∃ selected, applyJobFilters toLowerCase "" "running" s = some selected ∧
      selected = (s.activeJobs.map Prod.snd).filter (fun job => isActive job.status) ∧
      selected.length = (updateDashboardUI s).running) ∧
    applyJobFilters toLowerCase "" "" s = some (s.activeJobs.map Prod.snd) := by
  constructor
  · refine ⟨_, ?_, rfl, rfl⟩
    unfold applyJobFilters
    apply filterJobs_total
    intro job hm
    obtain ⟨entry, he, rfl⟩ := List.mem_map.mp hm
    exact jobMatches_running toLowerCase entry.2 hlow (hst entry he)
  · unfold applyJobFilters
    rw [filterJobs_total _ (fun _ => true) _
      (fun job _ => jobMatches_unfiltered toLowerCase job)]
    simp

/-- C16 (witness): a registry with one job in each of the five statuses: the
"running" filter selects two jobs, the dashboard counts two running, and the
empty filters select all five. -/
theorem filters_agree_with_dashboard_witness :
    (∀ w ∈ knownStatuses, asciiLower w = w) ∧
    (∃ selected, applyJobFilters asciiLower "" "running" fiveStatusState = some selected ∧
      selected.length = 2 ∧ (updateDashboardUI fiveStatusState).running = 2) ∧
    (applyJobFilters asciiLower "" "" fiveStatusState).map List.length = some 5 := by
  have h := filters_agree_with_dashboard asciiLower fiveStatusState (by decide) (by decide)
  obtain ⟨⟨selected, h1, _, h3⟩, h4⟩ := h
  refine ⟨by decide, ⟨selected, h1, ?_, by decide⟩, ?_⟩
  · rw [h3]; decide
  · rw [h4]; decide
end App
